import Mathlib

/-!
Verification of the tamago i.MX6 SoC support layer (UART driver, silicon
identification, entropy selection, watchdog reboot) against its register-level
model.  Machine integers are modelled as `Nat` with explicit `% 2^32`
truncation where the 32-bit arithmetic of the source matters; the
memory-mapped register file is a function from addresses to stored words.
-/

namespace Tamago

/-- All-ones mask for a 32-bit word. -/
def mask32 : Nat := 2 ^ 32 - 1

/-- The memory-mapped register file: physical address to stored word. -/
abbrev Mem : Type := Nat → Nat

/-- Modelled from the spec: register primitive `read(addr) -> word`
(the repository's `internal/reg` package is not among the given sources);
a read returns the stored 32-bit word. -/
def regRead (m : Mem) (addr : Nat) : Nat := m addr % 2 ^ 32

/-- Modelled from the spec: register primitive `write(addr, word)`,
storing a 32-bit word at the address. -/
def regWrite (m : Mem) (addr v : Nat) : Mem :=
  fun a => if a = addr then v % 2 ^ 32 else m a

/-- Modelled from the spec: register primitive
`get(addr, bitOffset, mask) -> value`, extracting a masked bit-field. -/
def regGet (m : Mem) (addr off mask : Nat) : Nat :=
  (regRead m addr >>> off) &&& mask

/-- Modelled from the spec: register primitive `set(addr, bitOffset)`,
setting one bit of the addressed word. -/
def regSet (m : Mem) (addr off : Nat) : Mem :=
  regWrite m addr (regRead m addr ||| (1 <<< off))

/-- Modelled from the spec: register primitive `clear(addr, bitOffset)`,
clearing one bit of the addressed word. -/
def regClear (m : Mem) (addr off : Nat) : Mem :=
  regWrite m addr (regRead m addr &&& (mask32 ^^^ (1 <<< off)))

/-- Modelled from the spec: register primitive
`setField(addr, bitOffset, mask, value)`, replacing a masked bit-field. -/
def regSetN (m : Mem) (addr off mask v : Nat) : Mem :=
  regWrite m addr
    ((regRead m addr &&& (mask32 ^^^ (mask <<< off))) ||| ((v &&& mask) <<< off))

/-- Modelled from the spec: 16-bit register write (`reg.Write16`), which
touches only the low 16 bits of the addressed location. -/
def regWrite16 (m : Mem) (addr v : Nat) : Mem :=
  fun a => if a = addr then m a / 2 ^ 16 * 2 ^ 16 + v % 2 ^ 16 else m a

/-- Modelled from the spec: 16-bit register read, returning the low 16 bits
of the addressed location (the watchdog control register is 16 bits wide). -/
def regRead16 (m : Mem) (addr : Nat) : Nat := m addr % 2 ^ 16

/-- Modelled from the spec: `bits.Set` on a local variable, setting one bit. -/
def bitsSet (v off : Nat) : Nat := v ||| (1 <<< off)

/-- Modelled from the spec: `bits.SetN` on a local variable, replacing a
masked bit-field. -/
def bitsSetN (v off mask x : Nat) : Nat :=
  (v &&& (mask32 ^^^ (mask <<< off))) ||| ((x &&& mask) <<< off)

/-! ### Constants from the source (`uart.go` and the i.MX6 support file) -/

def UART_DEFAULT_BAUDRATE : Nat := 115200
def ESC : Nat := 0x1b

def UART2_BASE : Nat := 0x021e8000

def UARTx_URXD : Nat := 0x0000
def URXD_PRERR : Nat := 10
def URXD_RX_DATA : Nat := 0

def UARTx_UTXD : Nat := 0x0040
def UARTx_UCR1 : Nat := 0x0080
def UCR1_UARTEN : Nat := 0

def UARTx_UCR2 : Nat := 0x0084
def UCR2_IRTS : Nat := 14
def UCR2_WS : Nat := 5
def UCR2_TXEN : Nat := 2
def UCR2_RXEN : Nat := 1
def UCR2_SRST : Nat := 0

def UARTx_UCR3 : Nat := 0x0088
def UCR3_DSR : Nat := 10
def UCR3_DCD : Nat := 9
def UCR3_RI : Nat := 8
def UCR3_ADNIMP : Nat := 7
def UCR3_RXDMUXSEL : Nat := 2

def UARTx_UCR4 : Nat := 0x008c
def UCR4_CTSTL : Nat := 10

def UARTx_UFCR : Nat := 0x0090
def UFCR_TXTL : Nat := 10
def UFCR_RFDIV : Nat := 7
def UFCR_RXTL : Nat := 0

def UARTx_USR2 : Nat := 0x0098
def USR2_RDR : Nat := 0

def UARTx_UESC : Nat := 0x009c
def UARTx_UTIM : Nat := 0x00a0
def UARTx_UBIR : Nat := 0x00a4
def UARTx_UBMR : Nat := 0x00a8

def UARTx_UTS : Nat := 0x00b4
def UTS_TXEMPTY : Nat := 6

def WDOG1_WCR : Nat := 0x020bc000
def USB_ANALOG_DIGPROG : Nat := 0x020c8260
def SRC_SCR : Nat := 0x020d8000
def SCR_WARM_RESET_ENABLE : Nat := 0
def SYS_CNT_BASE : Nat := 0x021dc000

def IMX6Q : Nat := 0x63
def IMX6UL : Nat := 0x64
def IMX6ULL : Nat := 0x65

/-! ### Silicon identification (`SiliconVersion`, `hwinit`, `Model`) -/

/-- Function `SiliconVersion` from the source: reads the chip-version register and
extracts `(sv, family, revMajor, revMinor)` by shift-and-mask. -/
def SiliconVersion (m : Mem) : Nat × Nat × Nat × Nat :=
  let sv := regRead m USB_ANALOG_DIGPROG
  (sv, (sv >>> 16) &&& 0xff, (sv >>> 8) &&& 0xff, sv &&& 0xff)

/-- The `Native` flag as recorded by `hwinit`: it starts `false` and is set
to `true` exactly when `revMajor != 0 || revMinor != 0`. -/
def nativeOf (revMajor revMinor : Nat) : Bool :=
  if revMajor ≠ 0 ∨ revMinor ≠ 0 then true else false

/-- The chip identity `(Family, Native)` recorded process-wide by `hwinit`. -/
def hwIdentity (m : Mem) : Nat × Bool :=
  let r := SiliconVersion m
  (r.2.1, nativeOf r.2.2.1 r.2.2.2)

/-- Function `Model` from the source: maps the recorded family code to a model name,
with an "unknown" fallback. -/
def Model (family : Nat) : String :=
  if family = IMX6Q then "i.MX6Q"
  else if family = IMX6UL then "i.MX6UL"
  else if family = IMX6ULL then "i.MX6ULL"
  else "unknown"

/-! ### Entropy source selection (`initRNG`) -/

/-- The two entropy sources `initRNG` can bind the process-wide random-data
function to: the hardware RNGB accessor or the LCG software fallback. -/
inductive RngSource where
  | hw
  | lcg
deriving DecidableEq

/-- Function `initRNG` from the source: binds the hardware generator exactly when
`Family == IMX6ULL && Native`, and the software fallback otherwise. -/
def initRNG (family : Nat) (native : Bool) : RngSource :=
  if family = IMX6ULL ∧ native = true then RngSource.hw else RngSource.lcg

/-! ### Timer selection during bring-up (`hwinit`) -/

/-- The timer-start actions `hwinit` can take. -/
inductive TimerInit where
  | global
  | generic (base freq : Nat)
deriving DecidableEq

/-- The timer-selection switch of `hwinit`: `IMX6Q` starts the global timers;
`IMX6UL` and `IMX6ULL` start the generic timers with a frequency that depends
on the `Native` flag; any other family falls through to the global timers. -/
def timerInit (family : Nat) (native : Bool) : TimerInit :=
  if family = IMX6Q then TimerInit.global
  else if family = IMX6UL ∨ family = IMX6ULL then
    if native = false then TimerInit.generic SYS_CNT_BASE 62500000
    else TimerInit.generic SYS_CNT_BASE 8000000
  else TimerInit.global

/-! ### The UART instance (`Uart` struct and address computation of `init`) -/

/-- The `Uart` struct from the source: the absolute addresses of the
peripheral's registers. -/
structure Uart where
  urxd : Nat
  utxd : Nat
  ucr1 : Nat
  ucr2 : Nat
  ucr3 : Nat
  ucr4 : Nat
  ufcr : Nat
  usr2 : Nat
  uesc : Nat
  utim : Nat
  ubir : Nat
  ubmr : Nat
  uts : Nat

/-- The address computation performed by the unexported `init`: each register
address is the base plus its fixed offset. -/
def Uart.ofBase (base : Nat) : Uart where
  urxd := base + UARTx_URXD
  utxd := base + UARTx_UTXD
  ucr1 := base + UARTx_UCR1
  ucr2 := base + UARTx_UCR2
  ucr3 := base + UARTx_UCR3
  ucr4 := base + UARTx_UCR4
  ufcr := base + UARTx_UFCR
  usr2 := base + UARTx_USR2
  uesc := base + UARTx_UESC
  utim := base + UARTx_UTIM
  ubir := base + UARTx_UBIR
  ubmr := base + UARTx_UBMR
  uts := base + UARTx_UTS

/-! ### Polled receive (`rxReady`, `rxError`, `Read`) -/

/-- Function `rxReady` from the source: the receive-ready bit of USR2. -/
def rxReady (hw : Uart) (m : Mem) : Bool :=
  regGet m hw.usr2 USR2_RDR 1 == 1

/-- Function `rxError` from the source: the 5-bit error field of URXD
(PRERR, BRK, FRMERR, OVRRUN, ERR) is nonzero. -/
def rxError (hw : Uart) (m : Mem) : Bool :=
  regGet m hw.urxd URXD_PRERR 0b11111 != 0

/-- Function `Read` from the source: returns `(0, false)` unless the ready bit is set
and the error field is clear, and otherwise the low 8 bits of URXD with
`true`. -/
def uartRead (hw : Uart) (m : Mem) : Nat × Bool :=
  if !rxReady hw m then (0, false)
  else if rxError hw m then (0, false)
  else (regGet m hw.urxd URXD_RX_DATA 0xff, true)

/-- A single register-field read together with the address it touches:
used to account for which registers a code path reads. -/
def readOp (addr off mask : Nat) (m : Mem) : Nat × List Nat :=
  (regGet m addr off mask, [addr])

/-- Function `Read` from the source, instrumented with the list of register addresses
it reads, in order: USR2 for the ready bit, then URXD for the error check,
then URXD again for the returned data byte. -/
def uartReadT (hw : Uart) (m : Mem) : (Nat × Bool) × List Nat :=
  let r := readOp hw.usr2 USR2_RDR 1 m
  if r.1 != 1 then ((0, false), r.2)
  else
    let e := readOp hw.urxd URXD_PRERR 0b11111 m
    if e.1 != 0 then ((0, false), r.2 ++ e.2)
    else
      let d := readOp hw.urxd URXD_RX_DATA 0xff m
      ((d.1, true), r.2 ++ e.2 ++ d.2)

/-! ### Register-commit events and `Reboot` -/

/-- One committed register operation, used to record what a routine writes
and in which order. -/
inductive Event where
  | write (addr v : Nat)
  | write16 (addr v : Nat)
  | wait (addr off mask expected : Nat)
  | setBit (addr off : Nat)
  | setField (addr off mask v : Nat)
  | clearBit (addr off : Nat)
deriving DecidableEq

/-- Function `Reboot` from the source: clears the warm-reset-enable bit of SRC_SCR,
then writes zero to the 16-bit watchdog control register WDOG1_WCR. -/
def Reboot (m : Mem) : Mem × List Event :=
  let m1 := regClear m SRC_SCR SCR_WARM_RESET_ENABLE
  let m2 := regWrite16 m1 WDOG1_WCR 0
  (m2, [Event.clearBit SRC_SCR SCR_WARM_RESET_ENABLE,
        Event.write16 WDOG1_WCR 0])

/-! ### Polled transmit (`txEmpty`, `Write`) -/

/-- Function `txEmpty` from the source: true while the TXEMPTY status bit of UTS
reads 0 (transmit FIFO not yet reported empty). -/
def txEmpty (hw : Uart) (m : Mem) : Bool :=
  regGet m hw.uts UTS_TXEMPTY 1 == 0

/-- The busy-wait loop of `Write`: at each instant `t` of the register
stream `s` it polls `txEmpty` and keeps spinning while it holds, returning
the instant at which the FIFO first reports empty.  `fuel` bounds how long
the loop is observed; `none` means it was still spinning. -/
def uartWriteLoop (hw : Uart) (s : Nat → Mem) : Nat → Nat → Option Nat
  | 0, t => if txEmpty hw (s t) then none else some t
  | fuel + 1, t =>
    if txEmpty hw (s t) then uartWriteLoop hw s fuel (t + 1) else some t

/-- Function `Write` from the source: stores the byte in the transmit-data register
(every later observation of the stream sees it there), then busy-waits on
`txEmpty`.  Returns the written-through stream and the return instant. -/
def uartWrite (hw : Uart) (c : Nat) (s : Nat → Mem) (fuel : Nat) :
    (Nat → Mem) × Option Nat :=
  let s' := fun t => regWrite (s t) hw.utxd c
  (s', uartWriteLoop hw s' fuel 0)

/-! ### Clock resolver and `Init` -/

/-- Parameters of `uartclk` that live outside the given sources: the CCM
clock register address, its two field offsets, and the two reference
frequencies (`OSC_FREQ`, `VCO_FREQ`). -/
structure ClockEnv where
  CCM_CSCDR1 : Nat
  CSCDR1_UART_CLK_SEL : Nat
  CSCDR1_CLK_PODF : Nat
  OSC_FREQ : Nat
  VCO_FREQ : Nat

/-- Function `uartclk` from the source: selects one of the two reference frequencies
by the clock-select bit, reads the 6-bit divider field, and returns
`freq / (podf + 1)`. -/
def uartclk (env : ClockEnv) (m : Mem) : Nat :=
  let freq :=
    if regGet m env.CCM_CSCDR1 env.CSCDR1_UART_CLK_SEL 1 = 1 then env.OSC_FREQ
    else env.VCO_FREQ
  let podf := regGet m env.CCM_CSCDR1 env.CSCDR1_CLK_PODF 0b111111
  freq / (podf + 1)

/-- The baud divisor `2 * baudrate` as `Init` computes it, in the 32-bit
arithmetic of the source. -/
def initDivisor (b : Nat) : Nat := 2 * b % 2 ^ 32

/-- Perform a 32-bit register write and record the commit. -/
def emitWrite (st : Mem × List Event) (addr v : Nat) : Mem × List Event :=
  (regWrite st.1 addr v, st.2 ++ [Event.write addr v])

/-- Record a busy-wait on a register bit (`reg.Wait` leaves memory alone). -/
def emitWait (st : Mem × List Event) (addr off mask expected : Nat) :
    Mem × List Event :=
  (st.1, st.2 ++ [Event.wait addr off mask expected])

/-- Perform a read-modify-write of a register field and record the commit. -/
def emitSetN (st : Mem × List Event) (addr off mask v : Nat) :
    Mem × List Event :=
  (regSetN st.1 addr off mask v, st.2 ++ [Event.setField addr off mask v])

/-- Perform a read-modify-write setting one register bit and record it. -/
def emitSetBit (st : Mem × List Event) (addr off : Nat) : Mem × List Event :=
  (regSet st.1 addr off, st.2 ++ [Event.setBit addr off])

/-- Function `Init` from the source, step by step: disable the UART, wait for reset
deassertion, program UCR3, UCR4's CTSTL field, the escape character and
timer, UFCR, then the Binary Rate Multiplier pair (UBIR := 15, then
UBMR := (uartclk()/6) / (2*baudrate)), then UCR2, and finally the enable
bit in UCR1. -/
def uartInit (env : ClockEnv) (hw : Uart) (baudrate : Nat) (m : Mem) :
    Mem × List Event :=
  let st := ((m, ([] : List Event)) : Mem × List Event)
  let st := emitWrite st hw.ucr1 0
  let st := emitWrite st hw.ucr2 0
  let st := emitWait st hw.ucr2 UCR2_SRST 1 1
  let ucr3 := bitsSet 0 UCR3_DSR
  let ucr3 := bitsSet ucr3 UCR3_DCD
  let ucr3 := bitsSet ucr3 UCR3_RI
  let ucr3 := bitsSet ucr3 UCR3_ADNIMP
  let ucr3 := bitsSet ucr3 UCR3_RXDMUXSEL
  let st := emitWrite st hw.ucr3 ucr3
  let st := emitSetN st hw.ucr4 UCR4_CTSTL 0b111111 32
  let st := emitWrite st hw.uesc ESC
  let st := emitWrite st hw.utim 0
  let ufcr := bitsSetN 0 UFCR_RFDIV 0b111 0b100
  let ufcr := bitsSetN ufcr UFCR_TXTL 0b111111 2
  let ufcr := bitsSetN ufcr UFCR_RXTL 0b111111 1
  let st := emitWrite st hw.ufcr ufcr
  let clk := uartclk env st.1 / 6
  let ubmr := clk / initDivisor baudrate
  let st := emitWrite st hw.ubir 15
  let st := emitWrite st hw.ubmr ubmr
  let ucr2v := bitsSet 0 UCR2_IRTS
  let ucr2v := bitsSet ucr2v UCR2_WS
  let ucr2v := bitsSet ucr2v UCR2_TXEN
  let ucr2v := bitsSet ucr2v UCR2_RXEN
  let ucr2v := bitsSet ucr2v UCR2_SRST
  let st := emitWrite st hw.ucr2 ucr2v
  let st := emitSetBit st hw.ucr1 UCR1_UARTEN
  st

/-! ### Helper lemmas -/

lemma and_255_eq_mod (x : Nat) : x &&& 255 = x % 2 ^ 8 := by
  simpa using Nat.and_pow_two_sub_one_eq_mod x 8

lemma regRead_regWrite_ne (m : Mem) (a v a' : Nat) (h : a' ≠ a) :
    regRead (regWrite m a v) a' = regRead m a' := by
  unfold regRead regWrite
  rw [if_neg h]

lemma regGet_regWrite_ne (m : Mem) (a v a' off mask : Nat) (h : a' ≠ a) :
    regGet (regWrite m a v) a' off mask = regGet m a' off mask := by
  unfold regGet
  rw [regRead_regWrite_ne m a v a' h]

lemma regRead_regWrite_self (m : Mem) (a v : Nat) :
    regRead (regWrite m a v) a = v % 2 ^ 32 := by
  unfold regRead regWrite
  rw [if_pos rfl]
  omega

lemma regGet_regWrite16_ne (m : Mem) (a v a' off mask : Nat) (h : a' ≠ a) :
    regGet (regWrite16 m a v) a' off mask = regGet m a' off mask := by
  unfold regGet regRead regWrite16
  rw [if_neg h]

lemma regClear_bit_reads_zero (m : Mem) (a off : Nat) (hoff : off < 32) :
    regGet (regClear m a off) a off 1 = 0 := by
  unfold regClear regGet
  have h1 : 1 <<< off < 2 ^ 32 := by
    rw [Nat.one_shiftLeft]
    exact Nat.pow_lt_pow_right (by norm_num) hoff
  have hmask : mask32 < 2 ^ 32 := by
    unfold mask32
    omega
  have hc : mask32 ^^^ (1 <<< off) < 2 ^ 32 := Nat.xor_lt_two_pow hmask h1
  have hv : regRead m a &&& (mask32 ^^^ (1 <<< off)) < 2 ^ 32 :=
    lt_of_le_of_lt Nat.and_le_right hc
  rw [regRead_regWrite_self, Nat.mod_eq_of_lt hv]
  have hbit : (regRead m a &&& (mask32 ^^^ (1 <<< off))).testBit off = false := by
    rw [Nat.testBit_land, Nat.testBit_xor]
    have hm : mask32.testBit off = true := by
      unfold mask32
      rw [Nat.testBit_two_pow_sub_one]
      simpa using hoff
    have ho : (1 <<< off).testBit off = true := by
      rw [Nat.one_shiftLeft]
      exact Nat.testBit_two_pow_self
    rw [hm, ho]
    simp
  rw [Nat.testBit_to_div_mod] at hbit
  rw [Nat.and_one_is_mod, Nat.shiftRight_eq_div_pow]
  simp only [decide_eq_false_iff_not] at hbit
  omega

/-- C4: `Read()` returns `(0, false)` whenever the receive-ready bit is 0,
returns `(0, false)` whenever any bit of the 5-bit error field is nonzero
even if receive-ready is set, and otherwise returns the low 8 bits of the
receive-data register with `valid = true`. -/
theorem uartRead_gating (hw : Uart) (m : Mem) :
    (regGet m hw.usr2 USR2_RDR 1 = 0 → uartRead hw m = (0, false)) ∧
    (regGet m hw.urxd URXD_PRERR 0b11111 ≠ 0 → uartRead hw m = (0, false)) ∧
    (regGet m hw.usr2 USR2_RDR 1 = 1 → regGet m hw.urxd URXD_PRERR 0b11111 = 0 →
      uartRead hw m = (regRead m hw.urxd % 2 ^ 8, true)) := by
  refine ⟨?_, ?_, ?_⟩
  · intro h
    simp [uartRead, rxReady, h]
  · intro h
    by_cases hr : rxReady hw m <;> simp [uartRead, rxError, hr, h]
  · intro hready herr
    simp only [uartRead, rxReady, rxError, hready, herr]
    norm_num
    show regGet m hw.urxd URXD_RX_DATA 0xff = _
    unfold regGet URXD_RX_DATA
    rw [Nat.shiftRight_zero, and_255_eq_mod]
    norm_num

/-- Witness for C4: the three gated outcomes of `Read` at concrete register
contents (ready clear; ready set with an error bit; ready set and clean). -/
theorem uartRead_gating_witness :
    uartRead (Uart.ofBase 0) (fun _ => 0) = (0, false) ∧
    uartRead (Uart.ofBase 0) (fun a => if a = 0x98 then 1 else 1024) = (0, false) ∧
    uartRead (Uart.ofBase 0) (fun a => if a = 0x98 then 1 else 5) = (5, true) :=
  ⟨(uartRead_gating _ _).1 (by decide),
   (uartRead_gating _ _).2.1 (by decide),
   ((uartRead_gating (Uart.ofBase 0) (fun a => if a = 0x98 then 1 else 5)).2.2
      (by decide) (by decide)).trans (by decide)⟩

/-- C9: on every call of `Read` where the receive-ready bit is set and the
error field is clear, the instrumented read trace shows USR2 once and URXD
twice: the error check consumes the first URXD read and the returned byte
comes from the second, later URXD read. -/
theorem uartRead_double_read_on_success (hw : Uart) (m : Mem)
    (hready : regGet m hw.usr2 USR2_RDR 1 = 1)
    (herr : regGet m hw.urxd URXD_PRERR 0b11111 = 0) :
    (uartReadT hw m).2 = [hw.usr2, hw.urxd, hw.urxd] ∧
    (uartReadT hw m).1 = (regRead m hw.urxd % 2 ^ 8, true) := by
  constructor
  · simp [uartReadT, readOp, hready, herr]
  · simp only [uartReadT, readOp, hready, herr]
    norm_num
    show regGet m hw.urxd URXD_RX_DATA 0xff = _
    unfold regGet URXD_RX_DATA
    rw [Nat.shiftRight_zero, and_255_eq_mod]
    norm_num

/-- Witness for C9 at concrete register contents with the ready bit set and
the error field clear. -/
theorem uartRead_double_read_on_success_witness :
    (uartReadT (Uart.ofBase 0) (fun a => if a = 0x98 then 1 else 5)).2 =
      [0x98, 0, 0] :=
  ((uartRead_double_read_on_success (Uart.ofBase 0)
      (fun a => if a = 0x98 then 1 else 5) (by decide) (by decide)).1).trans
    (by decide)

/-- C6: `Reboot` first clears the warm-reset-enable bit of the reset-control
register and then writes zero to the 16-bit watchdog control register; after
the call the warm-reset-enable bit reads 0 and the watchdog register
reads 0. -/
theorem reboot_clears_warm_reset_then_zeroes_watchdog (m : Mem) :
    regGet (Reboot m).1 SRC_SCR SCR_WARM_RESET_ENABLE 1 = 0 ∧
    regRead16 (Reboot m).1 WDOG1_WCR = 0 ∧
    (Reboot m).2 = [Event.clearBit SRC_SCR SCR_WARM_RESET_ENABLE,
                    Event.write16 WDOG1_WCR 0] := by
  have hne : SRC_SCR ≠ WDOG1_WCR := by decide
  refine ⟨?_, ?_, rfl⟩
  · show regGet (regWrite16 (regClear m SRC_SCR SCR_WARM_RESET_ENABLE)
        WDOG1_WCR 0) SRC_SCR SCR_WARM_RESET_ENABLE 1 = 0
    rw [regGet_regWrite16_ne _ _ _ _ _ _ hne]
    exact regClear_bit_reads_zero m SRC_SCR SCR_WARM_RESET_ENABLE (by decide)
  · show regRead16 (regWrite16 (regClear m SRC_SCR SCR_WARM_RESET_ENABLE)
        WDOG1_WCR 0) WDOG1_WCR = 0
    unfold regRead16 regWrite16
    rw [if_pos rfl]
    omega

/-- C2: For every value of the chip-version register, silicon identification
extracts family as bits 23..16, revMajor as bits 15..8, revMinor as
bits 7..0, and the recorded native flag is false when both revision fields
are 0 and true otherwise. -/
theorem siliconVersion_extracts_fields_and_native (m : Mem) :
    (SiliconVersion m).2.1 = regRead m USB_ANALOG_DIGPROG / 2 ^ 16 % 2 ^ 8 ∧
    (SiliconVersion m).2.2.1 = regRead m USB_ANALOG_DIGPROG / 2 ^ 8 % 2 ^ 8 ∧
    (SiliconVersion m).2.2.2 = regRead m USB_ANALOG_DIGPROG % 2 ^ 8 ∧
    ((hwIdentity m).2 = false ↔
      (SiliconVersion m).2.2.1 = 0 ∧ (SiliconVersion m).2.2.2 = 0) := by
  refine ⟨?_, ?_, ?_, ?_⟩
  · show (regRead m USB_ANALOG_DIGPROG >>> 16) &&& 0xff = _
    rw [and_255_eq_mod, Nat.shiftRight_eq_div_pow]
  · show (regRead m USB_ANALOG_DIGPROG >>> 8) &&& 0xff = _
    rw [and_255_eq_mod, Nat.shiftRight_eq_div_pow]
  · exact and_255_eq_mod _
  · show nativeOf _ _ = false ↔ _
    unfold nativeOf
    split
    · rename_i h
      constructor
      · intro hc
        exact absurd hc (by decide)
      · intro hc
        rcases h with h | h
        · exact absurd hc.1 h
        · exact absurd hc.2 h
    · rename_i h
      push_neg at h
      simp [h.1, h.2]

/-- C3: When the chip-version register encodes family 0x65, revMajor 1,
revMinor 2, identification yields family IMX6ULL with the native flag true
and `Model` returns "i.MX6ULL"; for any family code outside the recognized
set, `Model` returns the "unknown" sentinel. -/
theorem identify_imx6ull_scenario_and_unknown_fallback :
    hwIdentity (fun a => if a = USB_ANALOG_DIGPROG then 0x650102 else 0) =
      (IMX6ULL, true) ∧
    Model (hwIdentity (fun a => if a = USB_ANALOG_DIGPROG then 0x650102 else 0)).1 =
      "i.MX6ULL" ∧
    ∀ f, f ≠ IMX6Q → f ≠ IMX6UL → f ≠ IMX6ULL → Model f = "unknown" := by
  refine ⟨by decide, by decide, ?_⟩
  intro f h1 h2 h3
  unfold Model
  rw [if_neg h1, if_neg h2, if_neg h3]

/-- Witness for C3 at the concrete unrecognized family code 0x70. -/
theorem identify_imx6ull_scenario_and_unknown_fallback_witness :
    Model 0x70 = "unknown" :=
  identify_imx6ull_scenario_and_unknown_fallback.2.2 0x70
    (by decide) (by decide) (by decide)

/-- C5: The entropy selector binds to the hardware RNG iff the recorded
family is IMX6ULL and the native flag is true; in particular at a
chip-version value with family 0x65 and both revision fields zero it binds
to the software fallback. -/
theorem initRNG_binds_hw_iff_imx6ull_native :
    (∀ f n, initRNG f n = RngSource.hw ↔ f = IMX6ULL ∧ n = true) ∧
    initRNG (hwIdentity (fun a => if a = USB_ANALOG_DIGPROG then 0x650000 else 0)).1
        (hwIdentity (fun a => if a = USB_ANALOG_DIGPROG then 0x650000 else 0)).2 =
      RngSource.lcg := by
  refine ⟨?_, by decide⟩
  intro f n
  unfold initRNG
  split
  · rename_i h
    simp [h.1, h.2]
  · rename_i h
    constructor
    · intro hc
      exact absurd hc (by decide)
    · intro hc
      exact absurd hc h

/-- C8: During bring-up, family IMX6Q starts the global timers, while
families IMX6UL and IMX6ULL start the generic timers seeded with
62500000 Hz when the native flag is false and 8000000 Hz when it is true. -/
theorem hwinit_timer_selection :
    (∀ n, timerInit IMX6Q n = TimerInit.global) ∧
    timerInit IMX6UL false = TimerInit.generic SYS_CNT_BASE 62500000 ∧
    timerInit IMX6ULL false = TimerInit.generic SYS_CNT_BASE 62500000 ∧
    timerInit IMX6UL true = TimerInit.generic SYS_CNT_BASE 8000000 ∧
    timerInit IMX6ULL true = TimerInit.generic SYS_CNT_BASE 8000000 := by
  refine ⟨fun n => by cases n <;> rfl, rfl, rfl, rfl, rfl⟩

lemma regGet_le_mask (m : Mem) (addr off mask : Nat) :
    regGet m addr off mask ≤ mask := by
  unfold regGet
  exact Nat.and_le_right

lemma txEmpty_false_iff (hw : Uart) (m : Mem) :
    txEmpty hw m = false ↔ regGet m hw.uts UTS_TXEMPTY 1 = 1 := by
  have hle := regGet_le_mask m hw.uts UTS_TXEMPTY 1
  unfold txEmpty
  constructor
  · intro h
    simp only [beq_eq_false_iff_ne, ne_eq] at h
    omega
  · intro h
    simp [h]

lemma txEmpty_true_iff (hw : Uart) (m : Mem) :
    txEmpty hw m = true ↔ regGet m hw.uts UTS_TXEMPTY 1 = 0 := by
  unfold txEmpty
  simp

lemma uartWriteLoop_spec (hw : Uart) (s : Nat → Mem) :
    ∀ fuel t0 t, uartWriteLoop hw s fuel t0 = some t →
      t0 ≤ t ∧ txEmpty hw (s t) = false ∧
      ∀ u, t0 ≤ u → u < t → txEmpty hw (s u) = true := by
  intro fuel
  induction fuel with
  | zero =>
    intro t0 t h
    unfold uartWriteLoop at h
    cases hb : txEmpty hw (s t0) with
    | true =>
      rw [if_pos hb] at h
      cases h
    | false =>
      rw [if_neg (by simp [hb])] at h
      injection h with h
      subst h
      refine ⟨le_refl _, hb, ?_⟩
      intro u h1 h2
      omega
  | succ fuel ih =>
    intro t0 t h
    unfold uartWriteLoop at h
    cases hb : txEmpty hw (s t0) with
    | true =>
      rw [if_pos hb] at h
      obtain ⟨h1, h2, h3⟩ := ih (t0 + 1) t h
      refine ⟨by omega, h2, ?_⟩
      intro u hu1 hu2
      rcases Nat.eq_or_lt_of_le hu1 with heq | hlt
      · rw [← heq]
        exact hb
      · exact h3 u hlt hu2
    | false =>
      rw [if_neg (by simp [hb])] at h
      injection h with h
      subst h
      refine ⟨le_refl _, hb, ?_⟩
      intro u h1 h2
      omega

/-- C7: `Write(c)` first stores the byte in the transmit-data register and
returns only at an instant where the transmit-empty status bit reads 1,
never while it reads 0: every earlier instant since the call shows the bit
deasserted. -/
theorem uartWrite_blocks_until_tx_empty (base c : Nat) (s : Nat → Mem)
    (fuel t : Nat) (hc : c < 256)
    (hret : (uartWrite (Uart.ofBase base) c s fuel).2 = some t) :
    (∀ u, regRead ((uartWrite (Uart.ofBase base) c s fuel).1 u)
        (base + UARTx_UTXD) = c) ∧
    regGet ((uartWrite (Uart.ofBase base) c s fuel).1 t)
        (base + UARTx_UTS) UTS_TXEMPTY 1 = 1 ∧
    ∀ u, u < t → regGet ((uartWrite (Uart.ofBase base) c s fuel).1 u)
        (base + UARTx_UTS) UTS_TXEMPTY 1 = 0 := by
  have hret' : uartWriteLoop (Uart.ofBase base)
      (fun u => regWrite (s u) (Uart.ofBase base).utxd c) fuel 0 = some t := hret
  have hfst : (uartWrite (Uart.ofBase base) c s fuel).1 =
      fun u => regWrite (s u) (Uart.ofBase base).utxd c := rfl
  rw [hfst]
  obtain ⟨-, h2, h3⟩ := uartWriteLoop_spec (Uart.ofBase base)
    (fun u => regWrite (s u) (Uart.ofBase base).utxd c) fuel 0 t hret'
  refine ⟨?_, ?_, ?_⟩
  · intro u
    show regRead (regWrite (s u) (Uart.ofBase base).utxd c)
      (base + UARTx_UTXD) = c
    have haddr : (Uart.ofBase base).utxd = base + UARTx_UTXD := rfl
    rw [haddr, regRead_regWrite_self]
    omega
  · show regGet ((fun u => regWrite (s u) (Uart.ofBase base).utxd c) t)
        ((Uart.ofBase base).uts) UTS_TXEMPTY 1 = 1
    exact (txEmpty_false_iff (Uart.ofBase base) _).mp h2
  · intro u hu
    show regGet ((fun v => regWrite (s v) (Uart.ofBase base).utxd c) u)
        ((Uart.ofBase base).uts) UTS_TXEMPTY 1 = 0
    exact (txEmpty_true_iff (Uart.ofBase base) _).mp (h3 u (Nat.zero_le _) hu)

/-- Witness for C7: with the status register constantly reporting the FIFO
empty, `Write` returns at instant 0 and the bit reads 1 there. -/
theorem uartWrite_blocks_until_tx_empty_witness :
    (65 : Nat) < 256 ∧
    (uartWrite (Uart.ofBase 0) 65 (fun _ _ => 64) 0).2 = some 0 ∧
    regGet ((uartWrite (Uart.ofBase 0) 65 (fun _ _ => 64) 0).1 0)
      (0 + UARTx_UTS) UTS_TXEMPTY 1 = 1 :=
  ⟨by decide, by decide,
   (uartWrite_blocks_until_tx_empty 0 65 (fun _ _ => 64) 0 0
      (by decide) (by decide)).2.1⟩

lemma uartclk_regWrite_ne (env : ClockEnv) (m : Mem) (a v : Nat)
    (h : env.CCM_CSCDR1 ≠ a) :
    uartclk env (regWrite m a v) = uartclk env m := by
  unfold uartclk
  rw [regGet_regWrite_ne _ _ _ _ _ _ h, regGet_regWrite_ne _ _ _ _ _ _ h]

lemma uartclk_regSetN_ne (env : ClockEnv) (m : Mem) (a off mask v : Nat)
    (h : env.CCM_CSCDR1 ≠ a) :
    uartclk env (regSetN m a off mask v) = uartclk env m := by
  unfold regSetN
  exact uartclk_regWrite_ne env m a _ h

/-- C1: for every baud rate `0 < b` in hardware range, `Init(b)` commits
UBIR := 15 and, immediately after it, UBMR := (uartclk()/6) / (2*b), the
denominator register strictly before the numerator register; `uartclk()` is
the resolver's result at the time of the call (the CCM register is distinct
from the UART registers written before it). -/
theorem uartInit_commits_ubir_then_ubmr (env : ClockEnv) (base b : Nat)
    (m : Mem) (hb : 0 < b) (hb2 : b < 2 ^ 31)
    (h1 : env.CCM_CSCDR1 ≠ base + UARTx_UCR1)
    (h2 : env.CCM_CSCDR1 ≠ base + UARTx_UCR2)
    (h3 : env.CCM_CSCDR1 ≠ base + UARTx_UCR3)
    (h4 : env.CCM_CSCDR1 ≠ base + UARTx_UCR4)
    (h5 : env.CCM_CSCDR1 ≠ base + UARTx_UESC)
    (h6 : env.CCM_CSCDR1 ≠ base + UARTx_UTIM)
    (h7 : env.CCM_CSCDR1 ≠ base + UARTx_UFCR) :
    ∃ pre post, (uartInit env (Uart.ofBase base) b m).2 =
      pre ++ Event.write (base + UARTx_UBIR) 15 ::
        Event.write (base + UARTx_UBMR) (uartclk env m / 6 / (2 * b)) ::
          post := by
  have hdiv : initDivisor b = 2 * b := by
    unfold initDivisor
    omega
  refine ⟨[Event.write (base + UARTx_UCR1) 0, Event.write (base + UARTx_UCR2) 0,
    Event.wait (base + UARTx_UCR2) UCR2_SRST 1 1,
    Event.write (base + UARTx_UCR3)
      (bitsSet (bitsSet (bitsSet (bitsSet (bitsSet 0 UCR3_DSR) UCR3_DCD)
        UCR3_RI) UCR3_ADNIMP) UCR3_RXDMUXSEL),
    Event.setField (base + UARTx_UCR4) UCR4_CTSTL 63 32,
    Event.write (base + UARTx_UESC) ESC,
    Event.write (base + UARTx_UTIM) 0,
    Event.write (base + UARTx_UFCR)
      (bitsSetN (bitsSetN (bitsSetN 0 UFCR_RFDIV 7 4) UFCR_TXTL 63 2)
        UFCR_RXTL 63 1)],
    [Event.write (base + UARTx_UCR2)
      (bitsSet (bitsSet (bitsSet (bitsSet (bitsSet 0 UCR2_IRTS) UCR2_WS)
        UCR2_TXEN) UCR2_RXEN) UCR2_SRST),
     Event.setBit (base + UARTx_UCR1) UCR1_UARTEN], ?_⟩
  simp only [uartInit, emitWrite, emitWait, emitSetN, emitSetBit, Uart.ofBase,
    List.nil_append, List.cons_append, List.append_assoc,
    List.singleton_append]
  rw [uartclk_regWrite_ne _ _ _ _ h7, uartclk_regWrite_ne _ _ _ _ h6,
    uartclk_regWrite_ne _ _ _ _ h5, uartclk_regSetN_ne _ _ _ _ _ _ h4,
    uartclk_regWrite_ne _ _ _ _ h3, uartclk_regWrite_ne _ _ _ _ h2,
    uartclk_regWrite_ne _ _ _ _ h1, hdiv]

/-- Witness for C1 at the default console configuration: the UART2 base,
the default baud rate, a CCM address distinct from the UART block, and an
all-zero initial register file. -/
theorem uartInit_commits_ubir_then_ubmr_witness :
    (0 < 115200 ∧ 115200 < 2 ^ 31 ∧
      (100 : Nat) ≠ UART2_BASE + UARTx_UCR1 ∧
      (100 : Nat) ≠ UART2_BASE + UARTx_UCR2 ∧
      (100 : Nat) ≠ UART2_BASE + UARTx_UCR3 ∧
      (100 : Nat) ≠ UART2_BASE + UARTx_UCR4 ∧
      (100 : Nat) ≠ UART2_BASE + UARTx_UESC ∧
      (100 : Nat) ≠ UART2_BASE + UARTx_UTIM ∧
      (100 : Nat) ≠ UART2_BASE + UARTx_UFCR) ∧
    ∃ pre post,
      (uartInit (ClockEnv.mk 100 0 6 24000000 480000000)
        (Uart.ofBase UART2_BASE) 115200 (fun _ => 0)).2 =
      pre ++ Event.write (UART2_BASE + UARTx_UBIR) 15 ::
        Event.write (UART2_BASE + UARTx_UBMR)
          (uartclk (ClockEnv.mk 100 0 6 24000000 480000000) (fun _ => 0) / 6 /
            (2 * 115200)) :: post :=
  ⟨⟨by decide, by decide, by decide, by decide, by decide, by decide,
    by decide, by decide, by decide⟩,
   uartInit_commits_ubir_then_ubmr (ClockEnv.mk 100 0 6 24000000 480000000)
     UART2_BASE 115200 (fun _ => 0) (by decide) (by decide) (by decide)
     (by decide) (by decide) (by decide) (by decide) (by decide) (by decide)⟩

/-- C10 counterexample: `baudrate > 0` alone does not keep the divisor of
`Init` nonzero: at `baudrate = 2^31` the 32-bit product `2 * baudrate`
wraps to 0, so the division `clk / (2*baudrate)` is a division by zero. -/
theorem uartInit_divisor_zero_at_2pow31 :
    0 < 2 ^ 31 ∧ initDivisor (2 ^ 31) = 0 := by
  constructor
  · norm_num
  · unfold initDivisor
    norm_num

/-- C10 (amended): under the precondition `0 < baudrate < 2^31` the divisor
`2 * baudrate` computed by `Init` in 32-bit arithmetic is nonzero, and the
divisor `podf + 1` of `uartclk` always lies in `[1, 64]` because `podf` is
masked to 6 bits. -/
theorem uartInit_division_safe (env : ClockEnv) (b : Nat) (m : Mem)
    (hb : 0 < b) (hb2 : b < 2 ^ 31) :
    0 < initDivisor b ∧
    1 ≤ regGet m env.CCM_CSCDR1 env.CSCDR1_CLK_PODF 0b111111 + 1 ∧
    regGet m env.CCM_CSCDR1 env.CSCDR1_CLK_PODF 0b111111 + 1 ≤ 64 := by
  have hpodf : regGet m env.CCM_CSCDR1 env.CSCDR1_CLK_PODF 0b111111 ≤ 63 :=
    regGet_le_mask _ _ _ _
  refine ⟨?_, by omega, by omega⟩
  unfold initDivisor
  omega

/-- Witness for C10's amended statement at the default baud rate. -/
theorem uartInit_division_safe_witness :
    (0 < 115200 ∧ 115200 < 2 ^ 31) ∧
    (0 < initDivisor 115200 ∧
     1 ≤ regGet (fun _ => 0) 100 6 0b111111 + 1 ∧
     regGet (fun _ => 0) 100 6 0b111111 + 1 ≤ 64) :=
  ⟨⟨by decide, by decide⟩,
   uartInit_division_safe (ClockEnv.mk 100 0 6 24000000 480000000) 115200
     (fun _ => 0) (by decide) (by decide)⟩

end Tamago
